import Mathlib

/-!
Shallow embedding of the MCP client transport of this repository
(`MCPClientImpl` in the unnamed client source file, plus the agent loop in
`gemini_mcp_agent.ts`), with theorems checking the specification's claims
about it.  Every definition is translated from the TypeScript source; doc
comments cite the source lines.
-/

/-- Byte strings (Node `Buffer` contents) are modelled as lists of bytes. -/
abbrev Bytes := List Nat

/-- Parsed JSON values, as produced by `JSON.parse`.  Objects are ordered
field lists (duplicate keys from parsing are resolved by `Json.getField`,
which takes the last occurrence, matching `JSON.parse`). -/
inductive Json where
  | null : Json
  | bool (b : Bool) : Json
  | num (n : Int) : Json
  | str (s : String) : Json
  | arr (xs : List Json) : Json
  | obj (fields : List (String × Json)) : Json

/-- JS member access `j.k` on a parsed value: the stored field of an object
(last occurrence wins, as after `JSON.parse`), `undefined` (here `none`)
when absent or when `j` is not an object. -/
def Json.getField (j : Json) (k : String) : Option Json :=
  match j with
  | .obj fields => ((fields.filter (fun p => p.1 == k)).getLast?).map (fun p => p.2)
  | _ => none

/-- JS truthiness of a defined value: `null`, `false`, `0` and `""` are
falsy; every object and array is truthy. -/
def Json.truthy : Json → Bool
  | .null => false
  | .bool b => b
  | .num n => n != 0
  | .str s => s != ""
  | .arr _ => true
  | .obj _ => true

/-- JS truthiness including `undefined` (`none`), which is falsy. -/
def jsTruthy : Option Json → Bool
  | none => false
  | some j => j.truthy

mutual

/-- JS `String(v)` coercion, as used by `new Error(v)` for a defined `v`. -/
def Json.jsToString : Json → String
  | .null => "null"
  | .bool true => "true"
  | .bool false => "false"
  | .num n => toString n
  | .str s => s
  | .arr xs => String.intercalate "," (jsToStringElems xs)
  | .obj _ => "[object Object]"

/-- Array elements under JS `toString`: `null` elements print as empty. -/
def jsToStringElems : List Json → List String
  | [] => []
  | .null :: rest => "" :: jsToStringElems rest
  | j :: rest => j.jsToString :: jsToStringElems rest

end

/-- The `message` of `new Error(v)`: empty when `v` is `undefined` (the
argument is treated as absent), otherwise the JS string coercion of `v`. -/
def jsNewErrorMessage : Option Json → String
  | none => ""
  | some j => j.jsToString

/-- The channel state held by `MCPClientImpl`: the buffered inbound
messages (`messageQueue`, field initialised to `[]`) and the at-most-one
pending read resolver (`currentResolver`, initialised to `null`).  Pending
readers are identified by a numeric id. -/
structure ChannelState where
  messageQueue : List Bytes
  currentResolver : Option Nat
  deriving DecidableEq, Repr

/-- Outcome of one `read()` call: either the promise resolves at once with
a message, or it stays pending (its resolver stored in the state). -/
inductive ReadOutcome where
  | resolved (msg : Bytes)
  | pending
  deriving DecidableEq, Repr

namespace MCPClientImpl

/-- `rpcInterface.read` (client source lines 97–110): if the queue is
non-empty, resolve immediately with `Buffer.concat(this.messageQueue)` and
clear the queue; otherwise store the resolver (`this.currentResolver =
resolveRead`), overwriting any previous one.  `r` is the id of the reader
issuing this call. -/
def read (r : Nat) (s : ChannelState) : ReadOutcome × ChannelState :=
  if s.messageQueue.length > 0 then
    (.resolved s.messageQueue.flatten, { s with messageQueue := [] })
  else
    (.pending, { s with currentResolver := some r })

/-- The socket `message` handler (client source lines 125–136): if a read
is pending, resolve it with the incoming buffer and clear the resolver;
otherwise push the buffer onto the queue.  Returns the delivery performed,
if any, alongside the new state. -/
def onMessage (data : Bytes) (s : ChannelState) : Option (Nat × Bytes) × ChannelState :=
  match s.currentResolver with
  | some r => (some (r, data), { s with currentResolver := none })
  | none => (none, { s with messageQueue := s.messageQueue ++ [data] })

end MCPClientImpl

/-- Events driving one channel: a `read()` call by reader `r`, or an
inbound socket message. -/
inductive ChanOp where
  | readOp (r : Nat)
  | msgOp (data : Bytes)
  deriving DecidableEq, Repr

/-- A channel run: current state plus the log of deliveries
`(reader, bytes)` in the order the reads were resolved. -/
structure ChanTrace where
  chan : ChannelState
  log : List (Nat × Bytes)
  deriving DecidableEq, Repr

/-- One event applied to a channel run, via `MCPClientImpl.read` and
`MCPClientImpl.onMessage`. -/
def stepChan (t : ChanTrace) : ChanOp → ChanTrace
  | .readOp r =>
    match MCPClientImpl.read r t.chan with
    | (.resolved m, c) => ⟨c, t.log ++ [(r, m)]⟩
    | (.pending, c) => ⟨c, t.log⟩
  | .msgOp data =>
    match MCPClientImpl.onMessage data t.chan with
    | (some d, c) => ⟨c, t.log ++ [d]⟩
    | (none, c) => ⟨c, t.log⟩

/-- Run a sequence of channel events. -/
def runChan (t : ChanTrace) (ops : List ChanOp) : ChanTrace :=
  ops.foldl stepChan t

/-- The channel of a freshly opened socket: empty queue, no pending read,
no deliveries. -/
def initChanTrace : ChanTrace := ⟨⟨[], none⟩, []⟩

/-- WebSocket ready states with their numeric values
(`CONNECTING = 0`, `OPEN = 1`, `CLOSING = 2`, `CLOSED = 3`). -/
inductive ReadyState where
  | connecting
  | opened
  | closing
  | closed
  deriving DecidableEq, Repr

/-- The numeric `readyState` value of the `ws` library. -/
def ReadyState.toNat : ReadyState → Nat
  | .connecting => 0
  | .opened => 1
  | .closing => 2
  | .closed => 3

/-- The mutable fields of `MCPClientImpl` relevant to the claims:
`this.socket` (with its ready state; `none` models `null`), the channel
state, whether `this.rpcInterface` has been installed (it is set on the
socket `open` event and never cleared), and whether `this.process` is
still set. -/
structure ClientState where
  socket : Option ReadyState
  chan : ChannelState
  rpcConnected : Bool
  procAlive : Bool
  deriving DecidableEq, Repr

/-- A JSON-RPC request as constructed by `list_tools` (lines 170–174) and
by the `call_tool` closure (lines 194–199) before serialization:
`{jsonrpc: '2.0', method, params?, id}` with `id` drawn from
`Math.floor(Math.random() * 1000000)` (modelled as a parameter). -/
structure RpcRequest where
  jsonrpc : String
  method : String
  params : Option Json
  reqId : Nat

/-- Outcome of `rpcInterface.write`. -/
inductive WriteOutcome where
  | sent
  | notConnectedError
  deriving DecidableEq, Repr

/-- Failures the client code can throw in the RPC layer, and the connect
timeout, for stating which operations can produce which failure. -/
inductive ClientError where
  | notConnected (msg : String)
  | rpcError (msgVal : Option Json)
  | connectTimeout

namespace MCPClientImpl

/-- `rpcInterface.write` (client source lines 111–120): throws
`'WebSocket not connected'` when `!this.socket?.readyState` — i.e. when
the socket is `null` or its `readyState` is the falsy `0` (`CONNECTING`);
otherwise calls `this.socket.send(data)`. -/
def write (data : RpcRequest) (s : ClientState) : WriteOutcome :=
  match s.socket with
  | none => .notConnectedError
  | some rs => if rs.toNat = 0 then .notConnectedError else .sent

/-- `disconnect` (client source lines 213–223): closes and nulls the
socket only when its `readyState` is `OPEN`, then kills and nulls the
process.  The channel state (queue and pending resolver) and
`this.rpcInterface` are left untouched. -/
def disconnect (s : ClientState) : ClientState :=
  let s1 := if s.socket = some ReadyState.opened then { s with socket := none } else s
  { s1 with procAlive := false }

/-- The response handling shared verbatim by `list_tools` (lines 178–184)
and the `call_tool` closure (lines 203–209): after `JSON.parse`, when
`result.error` is truthy throw `new Error(result.error.message)`,
otherwise resolve with `result.result` (which is `undefined` when the
field is absent). -/
def handleRpcResponse (result : Json) : Except ClientError (Option Json) :=
  if jsTruthy (result.getField "error") then
    .error (.rpcError ((result.getField "error").bind (fun e => e.getField "message")))
  else
    .ok (result.getField "result")

/-- `list_tools` (client source lines 165–185): throws
`'Not connected to MCP server'` when `this.rpcInterface` is `null`;
otherwise writes the `list_tools` request, reads one response (its parsed
value is the `response` parameter) and handles it.  The second component
records the requests actually written to the channel. -/
def list_tools (s : ClientState) (reqId : Nat) (response : Json) :
    Except ClientError (Option Json) × List RpcRequest :=
  if s.rpcConnected then
    let req : RpcRequest := ⟨"2.0", "list_tools", none, reqId⟩
    match write req s with
    | .notConnectedError => (.error (.notConnected "WebSocket not connected"), [])
    | .sent => (handleRpcResponse response, [req])
  else
    (.error (.notConnected "Not connected to MCP server"), [])

/-- `call_tool` registration (client source lines 187–191): taking the
closure throws `'Not connected to MCP server'` when `this.rpcInterface`
is `null`. -/
def call_tool_register (s : ClientState) : Except ClientError Unit :=
  if s.rpcConnected then .ok () else .error (.notConnected "Not connected to MCP server")

/-- The closure returned by `call_tool(toolName)` (client source lines
193–210): builds `{jsonrpc: '2.0', method: toolName, params: args, id}`,
writes it, reads one response (parsed value `response`) and handles it.
The second component records the requests actually written. -/
def call_tool_run (s : ClientState) (toolName : String) (args : Json) (reqId : Nat)
    (response : Json) : Except ClientError (Option Json) × List RpcRequest :=
  let req : RpcRequest := ⟨"2.0", toolName, some args, reqId⟩
  match write req s with
  | .notConnectedError => (.error (.notConnected "WebSocket not connected"), [])
  | .sent => (handleRpcResponse response, [req])

end MCPClientImpl

/-- The literal part of the endpoint pattern `/ws:\/\/localhost:\d+/`
(client source line 75). -/
def wsUrlLit : List Char := ("ws://localhost:").data

/-- Try to consume the literal `lit` at the head of `cs`; return the rest
on success. -/
def dropLit : List Char → List Char → Option (List Char)
  | [], cs => some cs
  | _ :: _, [] => none
  | p :: ps, c :: cs => if c = p then dropLit ps cs else none

/-- The maximal (greedy, as `\d+`) digit run at the head. -/
def takeDigits : List Char → List Char
  | [] => []
  | c :: cs => if c.isDigit then c :: takeDigits cs else []

/-- Match `ws://localhost:\d+` anchored at the start of `cs`. -/
def matchWsAt (cs : List Char) : Option (List Char) :=
  match dropLit wsUrlLit cs with
  | none => none
  | some rest =>
    let ds := takeDigits rest
    if ds.isEmpty then none else some (wsUrlLit ++ ds)

/-- `msg.match(/ws:\/\/localhost:\d+/)`: the leftmost match, scanning
start positions left to right as the JS regex engine does. -/
def firstWsMatch : List Char → Option (List Char)
  | [] => none
  | c :: cs =>
    match matchWsAt (c :: cs) with
    | some m => some m
    | none => firstWsMatch cs

/-- Observable effects of the stdout `data` handler installed by `connect`
(client source lines 71–81): the current value of the local `wsUrl`
variable (initialised to `''`) and the list of URLs for which
`this.createWebSocket(wsUrl)` was called, in order. -/
structure ConnectObs where
  wsUrl : String
  attempts : List String
  deriving DecidableEq, Repr

/-- One stdout `data` event (client source lines 72–81): match the chunk
against the endpoint pattern; on a match, set `wsUrl` to the match and
call `createWebSocket(wsUrl)`.  Nothing in the handler marks the endpoint
as already discovered. -/
def onStdoutData (st : ConnectObs) (chunk : String) : ConnectObs :=
  match firstWsMatch chunk.data with
  | some m => ⟨String.mk m, st.attempts ++ [String.mk m]⟩
  | none => st

/-- The stdout handler folded over the chunks the subprocess emits during
one `connect` call. -/
def connectStdout (chunks : List String) : ConnectObs :=
  chunks.foldl onStdoutData ⟨"", []⟩

/-- The connection timeout delay (client source line 161): 10000 ms. -/
def connectTimeoutDelayMs : Nat := 10000

/-- How a `createWebSocket` promise settles. -/
inductive ConnectResult where
  | openedAt (t : Nat)
  | wsFailedAt (t : Nat)
  | timedOutAt (t : Nat)
  deriving DecidableEq, Repr

/-- Settlement of the `createWebSocket` promise (client source lines
89–162): it resolves at the socket `open` event (`openAt`), rejects at a
socket `error` event (`errAt`), or rejects with
`'WebSocket connection timeout'` when the timer callback runs (`fireAt`)
and the socket is not yet `OPEN`; the earliest of these settles the
promise, later ones are no-ops.  Node runs a timer callback no earlier
than its delay, so callers instantiate `fireAt ≥ connectTimeoutDelayMs`. -/
def connectAttemptResult (openAt errAt : Option Nat) (fireAt : Nat) : ConnectResult :=
  let inf := fireAt + 1
  let opn := openAt.getD inf
  let err := errAt.getD inf
  if opn ≤ err ∧ opn ≤ fireAt then .openedAt opn
  else if err ≤ fireAt then .wsFailedAt err
  else .timedOutAt fireAt

/-- One tool descriptor as returned by `list_tools` and consumed by
`MCPAgent.setupTools` (`gemini_mcp_agent.ts` lines 108–131). -/
structure MCPToolEntry where
  name : String
  description : String
  inputSchema : Json

namespace MCPAgent

/-- `setupTools` (`gemini_mcp_agent.ts` lines 110–124): the `reduce` that
assigns `acc[tool.name] = {...}` for each discovered tool — an ordered
association list keyed by tool name, later assignments overwriting
earlier ones on lookup. -/
def setupTools (mcpTools : List MCPToolEntry) : List (String × MCPToolEntry) :=
  mcpTools.map (fun t => (t.name, t))

/-- JS property access `this.tools[name]`: the last assignment under that
key, or `undefined` (`none`). -/
def registryGet (reg : List (String × MCPToolEntry)) (k : String) : Option MCPToolEntry :=
  ((reg.filter (fun p => p.1 == k)).getLast?).map (fun p => p.2)

/-- Failures of one tool invocation as performed by the agent loop. -/
inductive InvokeError where
  | typeErrorUndefined
  | client (e : ClientError)

/-- `this.tools[name].callable(args)` (`gemini_mcp_agent.ts` line 166):
when `name` is not a key of the registry, `this.tools[name]` is
`undefined` and reading `.callable` throws a `TypeError` before anything
is written to the channel; otherwise the `call_tool` closure bound to
that tool's name runs.  The second component is the list of requests
written to the channel. -/
def invokeTool (reg : List (String × MCPToolEntry)) (s : ClientState) (name : String)
    (args : Json) (reqId : Nat) (response : Json) :
    Except InvokeError (Option Json) × List RpcRequest :=
  match registryGet reg name with
  | none => (.error .typeErrorUndefined, [])
  | some _ =>
    let (r, sent) := MCPClientImpl.call_tool_run s name args reqId response
    (r.mapError .client, sent)

end MCPAgent

/-- One part of a model response (`ExtendedPart` in
`gemini_mcp_agent.ts`): optional text, optional function-call directive
`(name, args)`, optional function response. -/
structure GenPart where
  text : Option String
  functionCall : Option (String × Json)
  functionResponse : Option (String × Json)

/-- One conversation turn (`Content`): a role and its parts. -/
structure Turn where
  role : String
  parts : List GenPart

/-- The part `{functionResponse: {name, response: {result}}}` pushed after
a tool invocation (`gemini_mcp_agent.ts` lines 168–178). -/
def funcResponsePart (name : String) (toolResult : Json) : GenPart :=
  ⟨none, none, some (name, toolResult)⟩

/-- Accumulated observables of one `processUserInput` call: the `contents`
array, the tool invocations performed (name and args, in order), and the
number of follow-up `generateContent` requests issued. -/
structure LoopAcc where
  contents : List Turn
  invocations : List (String × Json)
  followUpCalls : Nat

namespace MCPAgent

/-- The `for (const part of result.candidates[0].content.parts)` loop of
`processUserInput` (`gemini_mcp_agent.ts` lines 163–198).  The iteration
is over the snapshot of the ORIGINAL response's parts; for each part
carrying a `functionCall` it invokes the tool (`toolExec`, the registry
closure — a thrown error propagates and aborts the loop), pushes the
function-response turn, issues one follow-up `generateContent` request
(the k-th follow-up's parts are `followUps k`) and pushes the follow-up's
parts as a model turn, which the loop never iterates over. -/
def processUserInput_loop (toolExec : String → Json → Except String Json)
    (followUps : Nat → List GenPart) : List GenPart → LoopAcc → Except String LoopAcc
  | [], acc => .ok acc
  | p :: rest, acc =>
    match p.functionCall with
    | none => processUserInput_loop toolExec followUps rest acc
    | some (name, args) =>
      match toolExec name args with
      | .error e => .error e
      | .ok toolResult =>
        let fuParts := followUps acc.followUpCalls
        processUserInput_loop toolExec followUps rest
          { contents := acc.contents ++
              [⟨"user", [funcResponsePart name toolResult]⟩, ⟨"model", fuParts⟩],
            invocations := acc.invocations ++ [(name, args)],
            followUpCalls := acc.followUpCalls + 1 }

/-- `processUserInput` from the point where the original model response
`origParts` has been pushed onto `contents` (`gemini_mcp_agent.ts` line
161) to the end of the function-call loop. -/
def processUserInput (toolExec : String → Json → Except String Json)
    (origParts : List GenPart) (followUps : Nat → List GenPart)
    (messagesSoFar : List Turn) : Except String LoopAcc :=
  processUserInput_loop toolExec followUps origParts
    ⟨messagesSoFar ++ [⟨"model", origParts⟩], [], 0⟩

end MCPAgent


/-- The connected client right after the socket `open` event: socket
`OPEN`, empty channel, `rpcInterface` installed, process alive. -/
def sConn : ClientState := ⟨some ReadyState.opened, ⟨[], none⟩, true, true⟩

/-- A parsed response carrying neither a `result` nor an `error` field. -/
def respMissingFields : Json := Json.obj [("id", Json.num 1)]

/-- The error object `{"message":"boom"}`. -/
def errBoom : Json := Json.obj [("message", Json.str "boom")]

/-- A parsed response `{"id":1,"error":{"message":"boom"}}`. -/
def respBoom : Json := Json.obj [("id", Json.num 1), ("error", errBoom)]

/-- A tool executor that always succeeds, standing for a registry closure
whose exchanges all succeed. -/
def toolExecConst : String → Json → Except String Json :=
  fun _ _ => Except.ok (Json.str "ok")

/-- An original model response: one text part, one function-call part. -/
def origPartsW : List GenPart :=
  [⟨some "calling a tool", none, none⟩, ⟨none, some ("generate_text", Json.str "hi"), none⟩]

/-- Follow-up responses each carrying a further function-call directive
(which the loop must never execute). -/
def followUpsW : Nat → List GenPart :=
  fun _ => [⟨none, some ("nested_call", Json.null), none⟩]

/-! ## Theorems -/

/-- Claim C1, counterexample: with messages `[1]` and `[2]` arriving
before any `read()`, the first `read()` returns the concatenation
`[1, 2]` and the second stays pending — the two reads do NOT return the
two messages separately in arrival order. -/
theorem c1_counterexample :
    (runChan initChanTrace [.msgOp [1], .msgOp [2], .readOp 1, .readOp 2]).log = [(1, [1, 2])] ∧
    (runChan initChanTrace [.msgOp [1], .msgOp [2], .readOp 1, .readOp 2]).log
      ≠ [(1, [1]), (2, [2])] := by
  decide

/-- Claim C1 as amended: a single message arriving before `read()` is
returned by the next `read()`; but when two messages arrive before any
`read()`, the first `read()` returns their byte-concatenation and empties
the queue, so the second `read()` finds nothing and stays pending. -/
theorem c1_buffered_reads (b1 b2 : Bytes) :
    (runChan initChanTrace [.msgOp b1, .readOp 1]).log = [(1, b1)] ∧
    (runChan initChanTrace [.msgOp b1, .msgOp b2, .readOp 1, .readOp 2]).log = [(1, b1 ++ b2)] ∧
    (runChan initChanTrace [.msgOp b1, .msgOp b2, .readOp 1, .readOp 2]).chan
      = ⟨[], some 2⟩ := by
  refine ⟨?_, ?_, ?_⟩ <;>
    simp [runChan, stepChan, MCPClientImpl.read, MCPClientImpl.onMessage, initChanTrace]

/-- Claim C9: a `read()` issued while the queue holds `n ≥ 1` buffered
messages resolves with the byte-concatenation of all of them as one
message and leaves the queue empty. -/
theorem c9_read_concatenates_queue (r : Nat) (s : ChannelState) (h : s.messageQueue ≠ []) :
    MCPClientImpl.read r s
      = (.resolved s.messageQueue.flatten, { s with messageQueue := [] }) := by
  have hp : s.messageQueue.length > 0 := List.length_pos.mpr h
  simp [MCPClientImpl.read, hp]

/-- Witness for C9 at the queue `[[1], [2]]`. -/
theorem c9_witness :
    (⟨[[1], [2]], none⟩ : ChannelState).messageQueue ≠ [] ∧
    MCPClientImpl.read 0 ⟨[[1], [2]], none⟩ = (.resolved [1, 2], ⟨[], none⟩) :=
  ⟨by decide, c9_read_concatenates_queue 0 ⟨[[1], [2]], none⟩ (by decide)⟩

/-- A reader id that is not the stored resolver, has received nothing,
and never issues another `read()` is never delivered a message. -/
lemma runChan_never_delivers (r : Nat) :
    ∀ (ops : List ChanOp) (t : ChanTrace),
      (∀ op ∈ ops, op ≠ ChanOp.readOp r) →
      t.chan.currentResolver ≠ some r →
      (∀ m, (r, m) ∉ t.log) →
      (runChan t ops).chan.currentResolver ≠ some r ∧
        ∀ m, (r, m) ∉ (runChan t ops).log := by
  intro ops
  induction ops with
  | nil => intro t _ h2 h3; exact ⟨h2, h3⟩
  | cons op rest ih =>
    intro t hops h2 h3
    have hrest : ∀ o ∈ rest, o ≠ ChanOp.readOp r := fun o ho => hops o (List.mem_cons_of_mem _ ho)
    have hstep : (stepChan t op).chan.currentResolver ≠ some r ∧
        ∀ m, (r, m) ∉ (stepChan t op).log := by
      cases op with
      | readOp r' =>
        have hr' : r' ≠ r := by
          intro hEq
          exact hops _ (List.mem_cons_self _ _) (by rw [hEq])
        by_cases hq : t.chan.messageQueue.length > 0
        · constructor
          · simpa [stepChan, MCPClientImpl.read, hq] using h2
          · intro m hm
            simp [stepChan, MCPClientImpl.read, hq] at hm
            rcases hm with hm | hm
            · exact h3 m hm
            · exact hr' hm.1.symm
        · constructor
          · simp [stepChan, MCPClientImpl.read, hq]
            exact fun hEq => hr' hEq
          · intro m hm
            simp [stepChan, MCPClientImpl.read, hq] at hm
            exact h3 m hm
      | msgOp d =>
        cases hres : t.chan.currentResolver with
        | some r'' =>
          have hr'' : r'' ≠ r := fun hEq => h2 (by rw [hres, hEq])
          constructor
          · simp [stepChan, MCPClientImpl.onMessage, hres]
          · intro m hm
            simp [stepChan, MCPClientImpl.onMessage, hres] at hm
            rcases hm with hm | hm
            · exact h3 m hm
            · exact hr'' hm.1.symm
        | none =>
          constructor
          · simp [stepChan, MCPClientImpl.onMessage, hres]
          · intro m hm
            simp [stepChan, MCPClientImpl.onMessage, hres] at hm
            exact h3 m hm
    have := ih (stepChan t op) hrest hstep.1 hstep.2
    simpa [runChan, List.foldl_cons] using this

/-- Claim C10: the channel stores at most one pending resolver (a single
nullable field); a second `read()` issued while one is pending on an
empty queue overwrites the stored resolver, the next inbound message is
delivered only to the most recent reader, and the overwritten reader is
never delivered anything afterwards, whatever later events occur (as long
as it does not issue a new `read()`). -/
theorem c10_resolver_overwrite (b m : Bytes) (ops : List ChanOp)
    (hops : ∀ op ∈ ops, op ≠ ChanOp.readOp 1) :
    (runChan initChanTrace [.readOp 1, .readOp 2]).chan.currentResolver = some 2 ∧
    (runChan initChanTrace [.readOp 1, .readOp 2, .msgOp b]).log = [(2, b)] ∧
    (1, m) ∉ (runChan initChanTrace ([.readOp 1, .readOp 2, .msgOp b] ++ ops)).log := by
  refine ⟨by decide, ?_, ?_⟩
  · simp [runChan, stepChan, MCPClientImpl.read, MCPClientImpl.onMessage, initChanTrace]
  · have hpre : runChan initChanTrace [.readOp 1, .readOp 2, .msgOp b]
        = ⟨⟨[], none⟩, [(2, b)]⟩ := by
      simp [runChan, stepChan, MCPClientImpl.read, MCPClientImpl.onMessage, initChanTrace]
    have hsplit : runChan initChanTrace ([.readOp 1, .readOp 2, .msgOp b] ++ ops)
        = runChan (runChan initChanTrace [.readOp 1, .readOp 2, .msgOp b]) ops := by
      unfold runChan
      rw [List.foldl_append]
    rw [hsplit, hpre]
    exact (runChan_never_delivers 1 ops ⟨⟨[], none⟩, [(2, b)]⟩ hops (by simp)
      (by intro m' hm'; simp at hm')).2 m

/-- Witness for C10: message `[7]`, probe `[9]`, no further events. -/
theorem c10_witness :
    (∀ op ∈ ([] : List ChanOp), op ≠ ChanOp.readOp 1) ∧
    ((runChan initChanTrace [.readOp 1, .readOp 2]).chan.currentResolver = some 2 ∧
     (runChan initChanTrace [.readOp 1, .readOp 2, .msgOp [7]]).log = [(2, [7])] ∧
     (1, [9]) ∉ (runChan initChanTrace ([.readOp 1, .readOp 2, .msgOp [7]] ++ [])).log) :=
  ⟨by simp, c10_resolver_overwrite [7] [9] [] (by simp)⟩

/-- Claim C2, counterexample: `disconnect` of an open socket with message
`[1]` still buffered nulls the socket, yet a subsequent `read()` succeeds,
resolving with `[1]` — not every channel operation fails after close. -/
theorem c2_counterexample :
    (MCPClientImpl.disconnect ⟨some .opened, ⟨[[1]], none⟩, true, true⟩).socket = none ∧
    (MCPClientImpl.read 0
        (MCPClientImpl.disconnect ⟨some .opened, ⟨[[1]], none⟩, true, true⟩).chan).1
      = .resolved [1] := by
  decide

/-- Claim C2 as amended: after `disconnect` of a channel whose socket is
`OPEN`, `write` fails with the `'WebSocket not connected'` error; but
`read` is not guarded by connection state — the channel state survives
`disconnect` untouched, and a `read()` still resolves successfully from
the buffered queue when it is non-empty. -/
theorem c2_write_fails_after_disconnect (s : ClientState) (d : RpcRequest) (r : Nat)
    (hs : s.socket = some ReadyState.opened) (hq : s.chan.messageQueue ≠ []) :
    MCPClientImpl.write d (MCPClientImpl.disconnect s) = .notConnectedError ∧
    (MCPClientImpl.disconnect s).chan = s.chan ∧
    (MCPClientImpl.read r (MCPClientImpl.disconnect s).chan).1
      = .resolved s.chan.messageQueue.flatten := by
  have hd : MCPClientImpl.disconnect s = { s with socket := none, procAlive := false } := by
    simp [MCPClientImpl.disconnect, hs]
  have hp : s.chan.messageQueue.length > 0 := List.length_pos.mpr hq
  rw [hd]
  exact ⟨rfl, rfl, by simp [MCPClientImpl.read, hp]⟩

/-- Witness for C2 at an open client holding buffered message `[2]`. -/
theorem c2_witness :
    (⟨some .opened, ⟨[[2]], none⟩, true, true⟩ : ClientState).socket
        = some ReadyState.opened ∧
    (⟨some .opened, ⟨[[2]], none⟩, true, true⟩ : ClientState).chan.messageQueue ≠ [] ∧
    (MCPClientImpl.write ⟨"2.0", "list_tools", none, 0⟩
        (MCPClientImpl.disconnect ⟨some .opened, ⟨[[2]], none⟩, true, true⟩)
      = .notConnectedError ∧
     (MCPClientImpl.disconnect ⟨some .opened, ⟨[[2]], none⟩, true, true⟩).chan
       = ⟨[[2]], none⟩ ∧
     (MCPClientImpl.read 0
         (MCPClientImpl.disconnect ⟨some .opened, ⟨[[2]], none⟩, true, true⟩).chan).1
       = .resolved [2]) :=
  ⟨rfl, by decide,
    c2_write_fails_after_disconnect ⟨some .opened, ⟨[[2]], none⟩, true, true⟩
      ⟨"2.0", "list_tools", none, 0⟩ 0 rfl (by decide)⟩

/-- Claim C3, counterexample: on the parsed response `{"id":1}` — neither
`result` nor `error` present — both `list_tools` and a tool invocation
RESOLVE (with the absent `result.result`, i.e. `undefined`) instead of
failing with a `ProtocolError`. -/
theorem c3_counterexample :
    (MCPClientImpl.list_tools sConn 1 respMissingFields).1 = .ok none ∧
    (MCPClientImpl.call_tool_run sConn "echo" Json.null 2 respMissingFields).1 = .ok none :=
  ⟨rfl, rfl⟩

/-- Claim C3 as amended: when the parsed response object contains neither
a `result` nor an `error` field, both RPC exchanges resolve with the
absent (`undefined`) value of `result.result`; no `ProtocolError` — or
any failure — is raised. -/
theorem c3_missing_fields_resolve (s : ClientState) (reqId reqId2 : Nat)
    (name : String) (args resp : Json)
    (hc : s.rpcConnected = true)
    (hs : s.socket = some ReadyState.opened)
    (he : jsTruthy (resp.getField "error") = false)
    (hr : resp.getField "result" = none) :
    (MCPClientImpl.list_tools s reqId resp).1 = .ok none ∧
    (MCPClientImpl.call_tool_run s name args reqId2 resp).1 = .ok none := by
  constructor <;>
    simp [MCPClientImpl.list_tools, MCPClientImpl.call_tool_run, MCPClientImpl.write,
      MCPClientImpl.handleRpcResponse, hc, hs, he, hr, ReadyState.toNat]

/-- Witness for C3 at the connected client and response `{"id":1}`. -/
theorem c3_witness :
    sConn.rpcConnected = true ∧
    sConn.socket = some ReadyState.opened ∧
    jsTruthy (respMissingFields.getField "error") = false ∧
    respMissingFields.getField "result" = none ∧
    ((MCPClientImpl.list_tools sConn 3 respMissingFields).1 = .ok none ∧
     (MCPClientImpl.call_tool_run sConn "generate_text" Json.null 4 respMissingFields).1
       = .ok none) :=
  ⟨rfl, rfl, rfl, rfl,
    c3_missing_fields_resolve sConn 3 4 "generate_text" Json.null respMissingFields
      rfl rfl rfl rfl⟩

/-- Claim C4, counterexample: two stdout chunks each containing a
`ws://localhost:port` token cause TWO `createWebSocket` attempts, and the
recorded endpoint ends up being the SECOND match — later matching text is
neither ignored nor endpoint-immutable. -/
theorem c4_counterexample :
    (connectStdout ["ws://localhost:1", "ws://localhost:2"]).attempts.length = 2 ∧
    (connectStdout ["ws://localhost:1", "ws://localhost:2"]).wsUrl = "ws://localhost:2" := by
  decide

/-- The stdout fold appends one connection attempt per matching chunk. -/
lemma foldl_onStdoutData_attempts (chunks : List String) (st : ConnectObs) :
    (chunks.foldl onStdoutData st).attempts
      = st.attempts ++ chunks.filterMap (fun c => (firstWsMatch c.data).map String.mk) := by
  induction chunks generalizing st with
  | nil => simp
  | cons c cs ih =>
    cases h : firstWsMatch c.data <;> simp [onStdoutData, h, ih]

/-- Claim C4 as amended: the endpoint announcement is acted on once per
MATCHING stdout chunk, not once per session — every chunk containing a
`ws://localhost:port` token triggers a further `createWebSocket` attempt
with its first matched token (and overwrites the recorded URL). -/
theorem c4_attempt_per_matching_chunk (chunks : List String) :
    (connectStdout chunks).attempts
      = chunks.filterMap (fun c => (firstWsMatch c.data).map String.mk) := by
  simpa [connectStdout] using foldl_onStdoutData_attempts chunks ⟨"", []⟩

/-- `list_tools` can fail only with a not-connected or remote rpc error,
never with the connect timeout. -/
lemma list_tools_ne_connectTimeout (s : ClientState) (reqId : Nat) (resp : Json) :
    (MCPClientImpl.list_tools s reqId resp).1 ≠ .error .connectTimeout := by
  unfold MCPClientImpl.list_tools
  dsimp only
  split
  · split
    · simp
    · show (MCPClientImpl.handleRpcResponse resp, _).1 ≠ _
      unfold MCPClientImpl.handleRpcResponse
      split <;> simp
  · simp

/-- A tool invocation can fail only with a not-connected or remote rpc
error, never with the connect timeout. -/
lemma call_tool_run_ne_connectTimeout (s : ClientState) (name : String) (args : Json)
    (reqId : Nat) (resp : Json) :
    (MCPClientImpl.call_tool_run s name args reqId resp).1 ≠ .error .connectTimeout := by
  unfold MCPClientImpl.call_tool_run
  dsimp only
  split
  · simp
  · show (MCPClientImpl.handleRpcResponse resp, _).1 ≠ _
    unfold MCPClientImpl.handleRpcResponse
    split <;> simp

/-- Claim C5: when the timer callback runs at or after the 10000 ms delay
(as Node guarantees), a connection attempt that settles by timeout does so
at or after the window, never before; and the timeout can only settle the
connect promise — neither `list_tools` nor a tool invocation can ever fail
with the connect timeout. -/
theorem c5_connect_timeout_window (openAt errAt : Option Nat) (fireAt t : Nat)
    (s : ClientState) (reqId reqId2 : Nat) (resp : Json) (name : String) (args : Json)
    (hfire : connectTimeoutDelayMs ≤ fireAt)
    (hres : connectAttemptResult openAt errAt fireAt = .timedOutAt t) :
    connectTimeoutDelayMs ≤ t ∧
    (MCPClientImpl.list_tools s reqId resp).1 ≠ .error .connectTimeout ∧
    (MCPClientImpl.call_tool_run s name args reqId2 resp).1 ≠ .error .connectTimeout := by
  refine ⟨?_, list_tools_ne_connectTimeout s reqId resp,
    call_tool_run_ne_connectTimeout s name args reqId2 resp⟩
  have ht : t = fireAt := by
    unfold connectAttemptResult at hres
    dsimp only at hres
    split at hres
    · simp at hres
    · split at hres
      · simp at hres
      · simpa using hres.symm
  omega

/-- Witness for C5: timer fires exactly at the delay, socket never opens
or errors, against the connected client and an empty response object. -/
theorem c5_witness :
    connectTimeoutDelayMs ≤ 10000 ∧
    connectAttemptResult none none 10000 = .timedOutAt 10000 ∧
    (connectTimeoutDelayMs ≤ 10000 ∧
     (MCPClientImpl.list_tools sConn 6 (Json.obj [])).1 ≠ .error .connectTimeout ∧
     (MCPClientImpl.call_tool_run sConn "generate_text" Json.null 7 (Json.obj [])).1
       ≠ .error .connectTimeout) :=
  ⟨by decide, rfl,
    c5_connect_timeout_window none none 10000 10000 sConn 6 7 (Json.obj [])
      "generate_text" Json.null (by decide) rfl⟩

/-- Claim C6: when the parsed response of a tool invocation carries a
truthy `error` object whose `message` field is the string `m`, the
invocation rejects with the thrown error carrying exactly `m` as its
message. -/
theorem c6_rpc_error_message_preserved (s : ClientState) (toolName : String)
    (args resp e : Json) (m : String) (reqId : Nat)
    (hs : s.socket = some ReadyState.opened)
    (he : resp.getField "error" = some e)
    (ht : e.truthy = true)
    (hm : e.getField "message" = some (Json.str m)) :
    (MCPClientImpl.call_tool_run s toolName args reqId resp).1
      = .error (.rpcError (some (Json.str m))) ∧
    jsNewErrorMessage (some (Json.str m)) = m := by
  constructor
  · simp [MCPClientImpl.call_tool_run, MCPClientImpl.write, hs, ReadyState.toNat,
      MCPClientImpl.handleRpcResponse, he, jsTruthy, ht, hm]
  · simp [jsNewErrorMessage, Json.jsToString]

/-- Witness for C6 at the response `{"id":1,"error":{"message":"boom"}}`. -/
theorem c6_witness :
    sConn.socket = some ReadyState.opened ∧
    respBoom.getField "error" = some errBoom ∧
    errBoom.truthy = true ∧
    errBoom.getField "message" = some (Json.str "boom") ∧
    ((MCPClientImpl.call_tool_run sConn "generate_text" Json.null 8 respBoom).1
        = .error (.rpcError (some (Json.str "boom"))) ∧
     jsNewErrorMessage (some (Json.str "boom")) = "boom") :=
  ⟨rfl, rfl, rfl, rfl,
    c6_rpc_error_message_preserved sConn "generate_text" Json.null respBoom errBoom
      "boom" 8 rfl rfl rfl rfl⟩

/-- A name absent from the discovered tool list is absent from the
registry that `setupTools` builds. -/
lemma registryGet_setupTools_none (mcpTools : List MCPToolEntry) (name : String)
    (h : name ∉ mcpTools.map MCPToolEntry.name) :
    MCPAgent.registryGet (MCPAgent.setupTools mcpTools) name = none := by
  have hfil : List.filter (fun p => p.1 == name) (mcpTools.map (fun t => (t.name, t))) = [] := by
    rw [List.filter_eq_nil_iff]
    intro p hp
    rcases List.mem_map.mp hp with ⟨tl, htl, rfl⟩
    simp only [beq_iff_eq]
    intro hEq
    exact h (List.mem_map.mpr ⟨tl, htl, hEq⟩)
  simp [MCPAgent.registryGet, MCPAgent.setupTools, hfil]

/-- Claim C7: invoking a tool name that is not in the discovered set fails
locally (reading `.callable` of the `undefined` registry entry throws a
`TypeError`) and writes NO request to the channel. -/
theorem c7_unknown_tool_fails_locally (mcpTools : List MCPToolEntry) (s : ClientState)
    (name : String) (args : Json) (reqId : Nat) (resp : Json)
    (h : name ∉ mcpTools.map MCPToolEntry.name) :
    MCPAgent.invokeTool (MCPAgent.setupTools mcpTools) s name args reqId resp
      = (.error .typeErrorUndefined, []) := by
  simp [MCPAgent.invokeTool, registryGet_setupTools_none mcpTools name h]

/-- Witness for C7: the discovered set holds only `generate_text`;
invoking `echo` fails locally with nothing sent. -/
theorem c7_witness :
    "echo" ∉ ([⟨"generate_text", "d", Json.null⟩] : List MCPToolEntry).map MCPToolEntry.name ∧
    MCPAgent.invokeTool (MCPAgent.setupTools [⟨"generate_text", "d", Json.null⟩]) sConn
        "echo" Json.null 9 Json.null
      = (.error .typeErrorUndefined, []) :=
  ⟨by simp, c7_unknown_tool_fails_locally [⟨"generate_text", "d", Json.null⟩] sConn
    "echo" Json.null 9 Json.null (by simp)⟩

/-- When every tool execution succeeds, the loop performs exactly one
invocation and one follow-up request per function-call directive of the
part list it iterates over. -/
lemma processUserInput_loop_ok (toolExec : String → Json → Except String Json)
    (followUps : Nat → List GenPart)
    (h : ∀ n a, ∃ v, toolExec n a = .ok v) :
    ∀ (parts : List GenPart) (acc : LoopAcc),
      ∃ acc', MCPAgent.processUserInput_loop toolExec followUps parts acc = .ok acc' ∧
        acc'.invocations = acc.invocations ++ parts.filterMap GenPart.functionCall ∧
        acc'.followUpCalls
          = acc.followUpCalls + (parts.filterMap GenPart.functionCall).length := by
  intro parts
  induction parts with
  | nil => intro acc; exact ⟨acc, rfl, by simp, by simp⟩
  | cons p rest ih =>
    intro acc
    cases hfc : p.functionCall with
    | none =>
      obtain ⟨acc', h1, h2, h3⟩ := ih acc
      refine ⟨acc', ?_, ?_, ?_⟩
      · simpa [MCPAgent.processUserInput_loop, hfc] using h1
      · simpa [List.filterMap_cons, hfc] using h2
      · simpa [List.filterMap_cons, hfc] using h3
    | some nmargs =>
      obtain ⟨name, args⟩ := nmargs
      obtain ⟨v, hv⟩ := h name args
      obtain ⟨acc', h1, h2, h3⟩ := ih
        { contents := acc.contents ++
            [⟨"user", [funcResponsePart name v]⟩, ⟨"model", followUps acc.followUpCalls⟩],
          invocations := acc.invocations ++ [(name, args)],
          followUpCalls := acc.followUpCalls + 1 }
      refine ⟨acc', ?_, ?_, ?_⟩
      · simpa [MCPAgent.processUserInput_loop, hfc, hv] using h1
      · simp only [List.filterMap_cons, hfc]
        simp only [h2]
        simp
      · simp only [List.filterMap_cons, hfc]
        simp only [h3]
        simp [List.length_cons]
        omega

/-- Claim C8: when every tool execution succeeds, the invocation loop
performs exactly one tool invocation and one follow-up model request per
function-call directive of the ORIGINAL response — the invocation list is
exactly the original response's directives, for every choice of follow-up
responses, so directives inside follow-up responses are never executed or
re-scanned. -/
theorem c8_one_round_per_directive (toolExec : String → Json → Except String Json)
    (origParts : List GenPart) (followUps : Nat → List GenPart) (messagesSoFar : List Turn)
    (h : ∀ n a, ∃ v, toolExec n a = .ok v) :
    ∃ acc, MCPAgent.processUserInput toolExec origParts followUps messagesSoFar = .ok acc ∧
      acc.invocations = origParts.filterMap GenPart.functionCall ∧
      acc.followUpCalls = (origParts.filterMap GenPart.functionCall).length := by
  obtain ⟨acc, h1, h2, h3⟩ := processUserInput_loop_ok toolExec followUps h origParts
    ⟨messagesSoFar ++ [⟨"model", origParts⟩], [], 0⟩
  exact ⟨acc, h1, by simpa using h2, by simpa using h3⟩

/-- Witness for C8: one directive in the original response, follow-up
responses all carrying a further directive that must never run. -/
theorem c8_witness :
    (∀ n a, ∃ v, toolExecConst n a = .ok v) ∧
    ∃ acc, MCPAgent.processUserInput toolExecConst origPartsW followUpsW [] = .ok acc ∧
      acc.invocations = origPartsW.filterMap GenPart.functionCall ∧
      acc.followUpCalls = (origPartsW.filterMap GenPart.functionCall).length :=
  ⟨fun _ _ => ⟨Json.str "ok", rfl⟩,
    c8_one_round_per_directive toolExecConst origPartsW followUpsW []
      (fun _ _ => ⟨Json.str "ok", rfl⟩)⟩
